import Mathlib

/-
Shallow embedding of the ip-manager forward-authentication service
(src/main.rs, src/settings.rs).

Modelling conventions:
- chrono DateTime of Utc is modelled as an Int of nanoseconds since the
  epoch.  UTC has no DST, so checked_add_days on a Utc timestamp adds an
  exact multiple of 86400 seconds; with_time keeps the calendar day
  (floor division by nsPerDay) and replaces the time-of-day component.
  Calendar day = Int.ediv by nsPerDay, time-of-day = Int.emod, matching
  the floor/nonnegative-remainder semantics of calendar arithmetic.
- std HashMap of IpAddr to WhitelistElement is modelled as an association
  list with unique keys; insert replaces the binding for the key, remove
  drops it, retain filters.
- tiny_http Header is a pair of field name and value; HeaderField
  equality in tiny_http is ASCII case-insensitive, modelled by fieldEq.
- IpAddr is an abstract key type; std IpAddr parsing (IpAddr::from_str)
  is an external library function, passed in as a parameter parseIp.
- Each body of a critical section in the source (one lock acquisition)
  is one atomic state transformation here; is_allowed performs two
  separate acquisitions (a read in get_ip, then a write in delete_ip).
-/

namespace IpManager

abbrev IpAddr := Nat

/-- tiny_http Header: a field name and a value. -/
structure Header where
  field : String
  value : String
deriving DecidableEq, Repr

/-- tiny_http HeaderField equality is ASCII case-insensitive
(eq_ignore_ascii_case): compare the character lists mapped through the
ASCII lowercase conversion. -/
def fieldEq (a b : String) : Bool :=
  a.data.map Char.toLower == b.data.map Char.toLower

/-- WhitelistElement from main.rs: valid_until is a DateTime of Utc
(nanoseconds since the epoch), headers the captured header list. -/
structure WhitelistElement where
  valid_until : Int
  headers : List Header
deriving DecidableEq, Repr

/-- IpWhitelist from main.rs: the guarded map plus the cutoff
configuration (minute, hour, days). -/
structure IpWhitelist where
  list : List (IpAddr × WhitelistElement)
  minute : Nat
  hour : Nat
  days : Nat
deriving DecidableEq, Repr

/-- Nanoseconds per UTC calendar day. -/
def nsPerDay : Int := 86400000000000

/-- NaiveTime::from_hms_opt(hour, minute, 0) as nanoseconds past
midnight (seconds and subseconds are zero). -/
def cutoffNs (hour minute : Nat) : Int :=
  ((hour * 3600 + minute * 60 : Nat) : Int) * 1000000000

/-- DateTime::with_time: keep the calendar day, set the time-of-day. -/
def withTime (t tod : Int) : Int := t / nsPerDay * nsPerDay + tod

/-- DateTime::checked_add_days on Utc: add n calendar days, each exactly
nsPerDay nanoseconds. -/
def addDays (t : Int) (n : Nat) : Int := t + (n : Int) * nsPerDay

/-- IpWhitelist::build. -/
def IpWhitelist.build (minute hour : Nat) (days : Nat) : IpWhitelist :=
  ⟨[], minute, hour, days⟩

/-- IpWhitelist::new_valid_until, with Utc::now() passed in as now:
add self.days calendar days, then snap to the cutoff time-of-day,
advancing one further day when the cutoff on that day already lies
strictly in the past relative to the shifted instant. -/
def IpWhitelist.new_valid_until (w : IpWhitelist) (now : Int) : Int :=
  let time := cutoffNs w.hour w.minute
  let date := addDays now w.days
  if date - withTime date time > 0 then
    withTime (addDays date 1) time
  else
    withTime date time

/-- First binding for a key in an association list (HashMap::get). -/
def lookupIp (l : List (IpAddr × WhitelistElement)) (addr : IpAddr) :
    Option WhitelistElement :=
  match l with
  | [] => none
  | p :: t => if p.1 = addr then some p.2 else lookupIp t addr

/-- Drop the binding for a key (HashMap::remove). -/
def removeIp (l : List (IpAddr × WhitelistElement)) (addr : IpAddr) :
    List (IpAddr × WhitelistElement) :=
  l.filter (fun p => p.1 != addr)

/-- IpWhitelist::get_ip: read-locked lookup returning a clone. -/
def IpWhitelist.get_ip (w : IpWhitelist) (addr : IpAddr) :
    Option WhitelistElement :=
  lookupIp w.list addr

/-- IpWhitelist::delete_ip: write-locked unconditional removal. -/
def IpWhitelist.delete_ip (w : IpWhitelist) (addr : IpAddr) : IpWhitelist :=
  { w with list := removeIp w.list addr }

/-- Result of IpWhitelist::is_allowed (Result of Vec Header, unit). -/
inductive CheckResult where
  | ok (headers : List Header)
  | notAuthorized
deriving DecidableEq, Repr

/-- IpWhitelist::is_allowed with Utc::now() passed in as now; returns
the result together with the cache state after the call. -/
def IpWhitelist.is_allowed (w : IpWhitelist) (addr : IpAddr) (now : Int) :
    CheckResult × IpWhitelist :=
  match w.get_ip addr with
  | some x =>
    if x.valid_until - now > 0 then (CheckResult.ok x.headers, w)
    else (CheckResult.notAuthorized, w.delete_ip addr)
  | none => (CheckResult.notAuthorized, w)

/-- IpWhitelist::allow with Utc::now() passed in as now: insert or
overwrite the entry for addr with the freshly computed valid_until. -/
def IpWhitelist.allow (w : IpWhitelist) (addr : IpAddr)
    (headers : List Header) (now : Int) : IpWhitelist :=
  { w with list := (addr, ⟨w.new_valid_until now, headers⟩) :: removeIp w.list addr }

/-- IpWhitelist::prune with Utc::now() read once as now: retain exactly
the entries whose valid_until is strictly in the future. -/
def IpWhitelist.prune (w : IpWhitelist) (now : Int) : IpWhitelist :=
  { w with list := w.list.filter (fun v => decide (v.2.valid_until - now > 0)) }

/-- The parts of Settings consumed by the two handlers: the allow-list
of header field names to capture, and the static IP allow-list. -/
structure Settings where
  headers : List String
  allow_list : List IpAddr
deriving DecidableEq, Repr

/-- A tiny_http Request as the handlers see it: its header list and the
transport peer address (remote_addr().ip()). -/
structure Request where
  headers : List Header
  peer : IpAddr
deriving DecidableEq, Repr

/-- The loop body of get_ip in main.rs: scan the headers in order; the
first X-Forwarded-For header whose value parses as an IP returns that
IP at once; unparseable X-Forwarded-For values are only logged. -/
def findForwarded (parseIp : String → Option IpAddr) :
    List Header → Option IpAddr
  | [] => none
  | h :: t =>
    if fieldEq h.field "X-Forwarded-For" then
      match parseIp h.value with
      | some ip => some ip
      | none => findForwarded parseIp t
    else findForwarded parseIp t

/-- get_ip from main.rs: the scanned forwarded address when one parses,
otherwise the transport peer address. -/
def get_ip (parseIp : String → Option IpAddr) (rq : Request) : IpAddr :=
  match findForwarded parseIp rq.headers with
  | some ip => ip
  | none => rq.peer

/-- The response the handlers build: status code, body, added headers. -/
structure HttpResponse where
  status : Nat
  body : String
  headers : List Header
deriving DecidableEq, Repr

/-- The allowed handler from main.rs, for the /allowed path: static
allow-list bypass, else whitelist check with header replay on success
and 403 on failure.  Returns the response and the cache state after. -/
def allowed (parseIp : String → Option IpAddr) (settings : Settings)
    (w : IpWhitelist) (rq : Request) (now : Int) :
    HttpResponse × IpWhitelist :=
  let addr := get_ip parseIp rq
  if addr ∈ settings.allow_list then
    (⟨200, "Ok", []⟩, w)
  else
    match w.is_allowed addr now with
    | (CheckResult.ok hs, w2) => (⟨200, "Ok", hs⟩, w2)
    | (CheckResult.notAuthorized, w2) =>
      (⟨403, "Please (re)authenticate yourself", []⟩, w2)

/-- The authorize handler from main.rs, for the /authorize path: filter
the request headers to those whose field is in the configured list,
store them for the resolved address, respond 200 Ok. -/
def authorize (parseIp : String → Option IpAddr) (settings : Settings)
    (w : IpWhitelist) (rq : Request) (now : Int) :
    HttpResponse × IpWhitelist :=
  let addr := get_ip parseIp rq
  let hs := rq.headers.filter (fun x => settings.headers.any (fun a => fieldEq a x.field))
  (⟨200, "Ok", []⟩, w.allow addr hs now)

/-- One cache operation of the system, tagged with the wall-clock
instant at which it runs. -/
inductive Op where
  | allowOp (addr : IpAddr) (headers : List Header) (now : Int)
  | checkOp (addr : IpAddr) (now : Int)
  | pruneOp (now : Int)
deriving DecidableEq, Repr

/-- Run a sequence of cache operations from a starting state. -/
def runOps (w : IpWhitelist) : List Op → IpWhitelist
  | [] => w
  | Op.allowOp a h t :: rest => runOps (w.allow a h t) rest
  | Op.checkOp a t :: rest => runOps (w.is_allowed a t).2 rest
  | Op.pruneOp t :: rest => runOps (w.prune t) rest

/-- Removing a key removes its binding. -/
theorem lookupIp_removeIp_self (l : List (IpAddr × WhitelistElement))
    (a : IpAddr) : lookupIp (removeIp l a) a = none := by
  induction l with
  | nil => rfl
  | cons p t ih =>
    by_cases h : p.1 = a
    · simpa [removeIp, List.filter_cons, h] using ih
    · simpa [removeIp, List.filter_cons, bne_iff_ne, h, lookupIp] using ih

/-- Removing one key leaves every other binding unchanged. -/
theorem lookupIp_removeIp_ne (l : List (IpAddr × WhitelistElement))
    (a b : IpAddr) (hab : b ≠ a) :
    lookupIp (removeIp l a) b = lookupIp l b := by
  induction l with
  | nil => rfl
  | cons p t ih =>
    by_cases h : p.1 = a
    · rw [show lookupIp (p :: t) b = lookupIp t b by
        simp [lookupIp, h, Ne.symm hab]]
      simpa [removeIp, List.filter_cons, h] using ih
    · by_cases hb : p.1 = b
      · simp [removeIp, List.filter_cons, bne_iff_ne, h, lookupIp, hb, hab]
      · rw [show lookupIp (p :: t) b = lookupIp t b by simp [lookupIp, hb]]
        simpa [removeIp, List.filter_cons, bne_iff_ne, h, lookupIp, hb] using ih

/-- Removing an absent key is a no-op. -/
theorem removeIp_eq_self (l : List (IpAddr × WhitelistElement)) (a : IpAddr)
    (h : lookupIp l a = none) : removeIp l a = l := by
  induction l with
  | nil => rfl
  | cons p t ih =>
    by_cases hp : p.1 = a
    · simp [lookupIp, hp] at h
    · simp only [lookupIp, if_neg hp] at h
      rw [removeIp, List.filter_cons,
        if_pos (by simpa [bne_iff_ne] using hp : (p.1 != a) = true)]
      rw [show List.filter (fun p => p.1 != a) t = removeIp t a from rfl, ih h]

/-- Members of the list after a removal were members before. -/
theorem mem_of_mem_removeIp (l : List (IpAddr × WhitelistElement))
    (a : IpAddr) (p : IpAddr × WhitelistElement) (h : p ∈ removeIp l a) :
    p ∈ l :=
  List.mem_of_mem_filter h

/-- With unique keys, removing a present key removes exactly one
element. -/
theorem removeIp_length (l : List (IpAddr × WhitelistElement)) (a : IpAddr)
    (e : WhitelistElement) (hnd : (l.map Prod.fst).Nodup)
    (h : lookupIp l a = some e) :
    (removeIp l a).length + 1 = l.length := by
  induction l with
  | nil => simp [lookupIp] at h
  | cons p t ih =>
    simp only [List.map_cons, List.nodup_cons] at hnd
    by_cases hp : p.1 = a
    · have habs : lookupIp t a = none := by
        cases hl : lookupIp t a with
        | none => rfl
        | some e2 =>
          exfalso
          apply hnd.1
          rw [hp]
          clear ih h hnd
          induction t with
          | nil => simp [lookupIp] at hl
          | cons q s ihs =>
            by_cases hq : q.1 = a
            · simp [hq]
            · simp only [lookupIp, if_neg hq] at hl
              simp [List.map_cons, ihs hl]
      rw [removeIp, List.filter_cons,
        if_neg (by simp [hp] : ¬ (p.1 != a) = true)]
      rw [show List.filter (fun p => p.1 != a) t = removeIp t a from rfl,
        removeIp_eq_self t a habs]
      simp
    · simp only [lookupIp, if_neg hp] at h
      simp only [removeIp, List.filter_cons, bne_iff_ne, ne_eq, hp,
        not_false_eq_true, if_pos, List.length_cons]
      rw [show (List.filter (fun p => p.1 != a) t).length = (removeIp t a).length from rfl,
        ih hnd.2 h]

/-- Closed form of new_valid_until: snap to the cutoff on the day
days calendar days out, one day later when the time-of-day of now lies
strictly past the cutoff. -/
theorem new_valid_until_eq (w : IpWhitelist) (now : Int) :
    w.new_valid_until now =
      if cutoffNs w.hour w.minute < now % nsPerDay then
        (now / nsPerDay + w.days + 1) * nsPerDay + cutoffNs w.hour w.minute
      else
        (now / nsPerDay + w.days) * nsPerDay + cutoffNs w.hour w.minute := by
  simp only [IpWhitelist.new_valid_until, addDays, withTime, cutoffNs, nsPerDay]
  split <;> split <;> omega

/-- With a valid configuration the computed expiry has time-of-day
exactly the cutoff (seconds and subseconds zero). -/
theorem new_valid_until_emod (w : IpWhitelist) (now : Int)
    (hh : w.hour ≤ 23) (hm : w.minute ≤ 59) :
    w.new_valid_until now % nsPerDay = cutoffNs w.hour w.minute := by
  rw [new_valid_until_eq]
  simp only [cutoffNs, nsPerDay]
  split <;> omega

/-- The computed expiry lies on a calendar day at least days days after
the day of the authorization instant. -/
theorem new_valid_until_day_ge (w : IpWhitelist) (now : Int)
    (hh : w.hour ≤ 23) (hm : w.minute ≤ 59) :
    now / nsPerDay + (w.days : Int) ≤ w.new_valid_until now / nsPerDay := by
  rw [new_valid_until_eq]
  simp only [cutoffNs, nsPerDay]
  split <;> omega

/-- Claim C2: with advance_days = 2 and cutoff 03:00, new_valid_until
maps an instant on day D to day D+2 at 03:00:00 when the time-of-day is
strictly before the cutoff or exactly at the cutoff (strict comparison
does not force the extra day), and to day D+3 at 03:00:00 when the
time-of-day is strictly after the cutoff. -/
theorem C2_expiry_cutoff_cases (now : Int) :
    (now % nsPerDay < cutoffNs 3 0 →
      (IpWhitelist.build 0 3 2).new_valid_until now =
        (now / nsPerDay + 2) * nsPerDay + cutoffNs 3 0) ∧
    (cutoffNs 3 0 < now % nsPerDay →
      (IpWhitelist.build 0 3 2).new_valid_until now =
        (now / nsPerDay + 3) * nsPerDay + cutoffNs 3 0) ∧
    (now % nsPerDay = cutoffNs 3 0 →
      (IpWhitelist.build 0 3 2).new_valid_until now =
        (now / nsPerDay + 2) * nsPerDay + cutoffNs 3 0) := by
  refine ⟨fun h => ?_, fun h => ?_, fun h => ?_⟩ <;>
    · rw [new_valid_until_eq]
      simp only [IpWhitelist.build, cutoffNs, nsPerDay] at h ⊢
      split <;> omega

/-- Witness for C2 at 00:00 (before cutoff), 04:00 (after cutoff) and
exactly 03:00 on the epoch day. -/
theorem C2_expiry_cutoff_cases_witness :
    (IpWhitelist.build 0 3 2).new_valid_until 0 =
      ((0 : Int) / nsPerDay + 2) * nsPerDay + cutoffNs 3 0 ∧
    (IpWhitelist.build 0 3 2).new_valid_until 14400000000000 =
      ((14400000000000 : Int) / nsPerDay + 3) * nsPerDay + cutoffNs 3 0 ∧
    (IpWhitelist.build 0 3 2).new_valid_until 10800000000000 =
      ((10800000000000 : Int) / nsPerDay + 2) * nsPerDay + cutoffNs 3 0 :=
  ⟨(C2_expiry_cutoff_cases 0).1 (by decide),
   (C2_expiry_cutoff_cases 14400000000000).2.1 (by decide),
   (C2_expiry_cutoff_cases 10800000000000).2.2 (by decide)⟩

/-- Claim C1 counterexample: with advance_days = 0 and the check at the
very instant of the authorization, an authorization performed exactly
at the 03:00 cutoff stores valid_until = now, and the immediate check
fails instead of returning the stored headers, because is_allowed
requires strictly positive remaining validity. -/
theorem C1_counterexample :
    (((IpWhitelist.build 0 3 0).allow 0 [⟨"Remote-User", "bob"⟩]
          10800000000000).is_allowed 0 10800000000000).1 ≠
      CheckResult.ok [⟨"Remote-User", "bob"⟩] := by decide

/-- Claim C1 (amended): a check(a) after authorize(a, H) with no
intervening operations returns success with exactly H, and leaves the
cache unchanged, at every instant from the authorization up to but
excluding the stored expiry new_valid_until; at or past that expiry
the check fails instead. -/
theorem C1_check_after_authorize (w : IpWhitelist) (a : IpAddr)
    (H : List Header) (now t : Int) (_h1 : now ≤ t)
    (h2 : t < w.new_valid_until now) :
    (w.allow a H now).is_allowed a t = (CheckResult.ok H, w.allow a H now) := by
  have h3 : w.new_valid_until now - t > 0 := by omega
  simp [IpWhitelist.is_allowed, IpWhitelist.get_ip, IpWhitelist.allow,
    lookupIp, h3]

/-- Witness for C1: advance_days = 1, authorization and check both at
the epoch instant. -/
theorem C1_check_after_authorize_witness :
    ((IpWhitelist.build 0 3 1).allow 0 [] 0).is_allowed 0 0 =
      (CheckResult.ok [], (IpWhitelist.build 0 3 1).allow 0 [] 0) :=
  C1_check_after_authorize (IpWhitelist.build 0 3 1) 0 [] 0 0 (by decide)
    (by decide)

/-- Claim C3: is_allowed fails with NotAuthorized when the address has
no entry, with the state untouched; when the entry exists but its
expiry is not strictly in the future it removes exactly that one
binding (every other binding kept, the count dropping by one under the
unique-keys map invariant) and fails; when the entry is strictly in the
future it returns a copy of the stored headers and leaves the state
unchanged. -/
theorem C3_is_allowed_cases (w : IpWhitelist) (addr : IpAddr) (now : Int) :
    (w.get_ip addr = none →
      w.is_allowed addr now = (CheckResult.notAuthorized, w)) ∧
    (∀ e, w.get_ip addr = some e → 0 < e.valid_until - now →
      w.is_allowed addr now = (CheckResult.ok e.headers, w)) ∧
    (∀ e, w.get_ip addr = some e → e.valid_until - now ≤ 0 →
      w.is_allowed addr now = (CheckResult.notAuthorized, w.delete_ip addr) ∧
      (w.delete_ip addr).get_ip addr = none ∧
      (∀ b, b ≠ addr → (w.delete_ip addr).get_ip b = w.get_ip b) ∧
      ((w.list.map Prod.fst).Nodup →
        (w.delete_ip addr).list.length + 1 = w.list.length)) := by
  refine ⟨fun h => ?_, fun e he hv => ?_, fun e he hv => ?_⟩
  · simp [IpWhitelist.is_allowed, h]
  · simp [IpWhitelist.is_allowed, he, hv]
  · refine ⟨?_, lookupIp_removeIp_self _ _,
      fun b hb => lookupIp_removeIp_ne _ _ _ hb,
      fun hnd => removeIp_length _ _ e hnd he⟩
    simp [IpWhitelist.is_allowed, he,
      show ¬ (e.valid_until - now > 0) from by omega]

/-- Witness for C3: an empty cache, a live entry checked before expiry,
and the same entry checked at its expiry instant. -/
theorem C3_is_allowed_cases_witness :
    (IpWhitelist.build 0 3 0).is_allowed 7 0 =
      (CheckResult.notAuthorized, IpWhitelist.build 0 3 0) ∧
    (⟨[(5, ⟨100, [⟨"Remote-User", "bob"⟩]⟩)], 0, 3, 0⟩ : IpWhitelist).is_allowed 5 0 =
      (CheckResult.ok [⟨"Remote-User", "bob"⟩],
        ⟨[(5, ⟨100, [⟨"Remote-User", "bob"⟩]⟩)], 0, 3, 0⟩) ∧
    (⟨[(5, ⟨100, [⟨"Remote-User", "bob"⟩]⟩)], 0, 3, 0⟩ : IpWhitelist).is_allowed 5 100 =
      (CheckResult.notAuthorized,
        (⟨[(5, ⟨100, [⟨"Remote-User", "bob"⟩]⟩)], 0, 3, 0⟩ : IpWhitelist).delete_ip 5) ∧
    ((⟨[(5, ⟨100, [⟨"Remote-User", "bob"⟩]⟩)], 0, 3, 0⟩ : IpWhitelist).delete_ip 5).list.length + 1 =
      (⟨[(5, ⟨100, [⟨"Remote-User", "bob"⟩]⟩)], 0, 3, 0⟩ : IpWhitelist).list.length :=
  ⟨(C3_is_allowed_cases (IpWhitelist.build 0 3 0) 7 0).1 rfl,
   (C3_is_allowed_cases ⟨[(5, ⟨100, [⟨"Remote-User", "bob"⟩]⟩)], 0, 3, 0⟩ 5 0).2.1
     ⟨100, [⟨"Remote-User", "bob"⟩]⟩ rfl (by decide),
   ((C3_is_allowed_cases ⟨[(5, ⟨100, [⟨"Remote-User", "bob"⟩]⟩)], 0, 3, 0⟩ 5 100).2.2
     ⟨100, [⟨"Remote-User", "bob"⟩]⟩ rfl (by decide)).1,
   ((C3_is_allowed_cases ⟨[(5, ⟨100, [⟨"Remote-User", "bob"⟩]⟩)], 0, 3, 0⟩ 5 100).2.2
     ⟨100, [⟨"Remote-User", "bob"⟩]⟩ rfl (by decide)).2.2.2 (by decide)⟩

/-- Claim C5: prune removes every entry whose expiry is not strictly in
the future at the sweep instant, keeps every entry whose expiry is
still strictly in the future, is idempotent at a fixed instant, and is
a no-op when nothing is expired. -/
theorem C5_prune_spec (w : IpWhitelist) (now : Int) :
    (∀ p ∈ (w.prune now).list, 0 < p.2.valid_until - now) ∧
    (∀ p ∈ w.list, 0 < p.2.valid_until - now → p ∈ (w.prune now).list) ∧
    (w.prune now).prune now = w.prune now ∧
    ((∀ p ∈ w.list, 0 < p.2.valid_until - now) → w.prune now = w) := by
  refine ⟨fun p hp => ?_, fun p hp h => ?_, ?_, fun h => ?_⟩
  · simpa using (List.mem_filter.mp hp).2
  · exact List.mem_filter.mpr ⟨hp, by simpa using h⟩
  · simp [IpWhitelist.prune, List.filter_filter]
  · simp only [IpWhitelist.prune]
    rw [List.filter_eq_self.mpr (fun a ha => by simpa using h a ha)]

/-- Witness for C5 on a cache holding one live and one expired entry. -/
theorem C5_prune_spec_witness :
    (0 : Int) < (100 : Int) - 0 ∧
    ((0 : IpAddr), (⟨100, []⟩ : WhitelistElement)) ∈
      ((⟨[(0, ⟨100, []⟩), (1, ⟨0, []⟩)], 0, 3, 0⟩ : IpWhitelist).prune 0).list ∧
    ((⟨[(0, ⟨100, []⟩), (1, ⟨0, []⟩)], 0, 3, 0⟩ : IpWhitelist).prune 0).prune 0 =
      (⟨[(0, ⟨100, []⟩), (1, ⟨0, []⟩)], 0, 3, 0⟩ : IpWhitelist).prune 0 :=
  ⟨(C5_prune_spec ⟨[(0, ⟨100, []⟩), (1, ⟨0, []⟩)], 0, 3, 0⟩ 0).1
     (0, ⟨100, []⟩) (by decide),
   (C5_prune_spec ⟨[(0, ⟨100, []⟩), (1, ⟨0, []⟩)], 0, 3, 0⟩ 0).2.1
     (0, ⟨100, []⟩) (by decide) (by decide),
   (C5_prune_spec ⟨[(0, ⟨100, []⟩), (1, ⟨0, []⟩)], 0, 3, 0⟩ 0).2.2.1⟩

/-- Claim C6 counterexample, with the two critical sections of
is_allowed taken as the atomic steps they are in the source: a first
authorize at the 03:00 cutoff with advance_days 0 leaves an entry that
is expired one nanosecond later (first two conjuncts: the read phase of
a check at that instant observes it as expired and decides to delete);
a concurrent authorize then installs a fresh entry that is strictly
unexpired at that same instant (next two conjuncts); the pending
delete_ip nevertheless removes it (last conjunct), so the fresh entry
does not survive. -/
theorem C6_counterexample :
    ((IpWhitelist.build 0 3 0).allow 0 [] 10800000000000).get_ip 0 =
        some ⟨10800000000000, []⟩ ∧
    ¬ ((10800000000000 : Int) - 10800000000001 > 0) ∧
    (((IpWhitelist.build 0 3 0).allow 0 [] 10800000000000).allow 0
          [⟨"Remote-User", "bob"⟩] 10800000000001).get_ip 0 =
        some ⟨97200000000000, [⟨"Remote-User", "bob"⟩]⟩ ∧
    ((97200000000000 : Int) - 10800000000001 > 0) ∧
    ((((IpWhitelist.build 0 3 0).allow 0 [] 10800000000000).allow 0
          [⟨"Remote-User", "bob"⟩] 10800000000001).delete_ip 0).get_ip 0 =
      none := by
  decide

/-- Claim C6 (amended): the lazy delete in is_allowed does not
re-validate under its own lock acquisition; delete_ip removes the
binding for the address unconditionally, so an entry installed by an
authorize that lands between the expiry check and the delete is
removed rather than surviving. -/
theorem C6_lazy_delete_unconditional (w : IpWhitelist) (a : IpAddr)
    (hs : List Header) (t : Int) :
    ((w.allow a hs t).delete_ip a).get_ip a = none :=
  lookupIp_removeIp_self _ _

/-- A check leaves the state as it was or as after the lazy delete. -/
theorem is_allowed_state (w : IpWhitelist) (a : IpAddr) (t : Int) :
    (w.is_allowed a t).2 = w ∨ (w.is_allowed a t).2 = w.delete_ip a := by
  simp only [IpWhitelist.is_allowed]
  cases w.get_ip a with
  | none => exact Or.inl rfl
  | some x =>
    dsimp only
    split
    · exact Or.inl rfl
    · exact Or.inr rfl

/-- Every entry in a state reached by a run of operations is either an
original entry or carries the valid_until computed by new_valid_until
at the instant of some authorize in the trace for exactly its address
and headers. -/
theorem runOps_origin (ops : List Op) (w : IpWhitelist)
    (p : IpAddr × WhitelistElement) (hp : p ∈ (runOps w ops).list) :
    p ∈ w.list ∨ ∃ t, Op.allowOp p.1 p.2.headers t ∈ ops ∧
      p.2.valid_until = w.new_valid_until t := by
  induction ops generalizing w with
  | nil => exact Or.inl hp
  | cons op rest ih =>
    cases op with
    | allowOp a hs t =>
      rcases ih (w.allow a hs t) hp with h1 | ⟨t2, ht1, ht2⟩
      · rcases List.mem_cons.mp h1 with h2 | h2
        · subst h2
          exact Or.inr ⟨t, List.mem_cons_self _ _, rfl⟩
        · exact Or.inl (mem_of_mem_removeIp _ _ _ h2)
      · exact Or.inr ⟨t2, List.mem_cons_of_mem _ ht1, ht2⟩
    | checkOp a t =>
      rcases ih ((w.is_allowed a t).2) hp with h1 | ⟨t2, ht1, ht2⟩
      · rcases is_allowed_state w a t with hs | hs
        · rw [hs] at h1
          exact Or.inl h1
        · rw [hs] at h1
          exact Or.inl (mem_of_mem_removeIp _ _ _ h1)
      · rcases is_allowed_state w a t with hs | hs <;> rw [hs] at ht2 <;>
          exact Or.inr ⟨t2, List.mem_cons_of_mem _ ht1, ht2⟩
    | pruneOp t =>
      rcases ih (w.prune t) hp with h1 | ⟨t2, ht1, ht2⟩
      · exact Or.inl (List.mem_of_mem_filter h1)
      · exact Or.inr ⟨t2, List.mem_cons_of_mem _ ht1, ht2⟩

/-- Claim C4: starting from an empty cache with a valid configuration,
after any sequence of authorize, check and prune operations every
stored entry has a valid_until whose time-of-day is exactly the cutoff
hour and minute with zero seconds and subseconds, on a calendar day at
least advance_days days after the day of the authorize that created
the entry. -/
theorem C4_expiry_invariant (minute hour days : Nat) (hh : hour ≤ 23)
    (hm : minute ≤ 59) (ops : List Op) (p : IpAddr × WhitelistElement)
    (hp : p ∈ (runOps (IpWhitelist.build minute hour days) ops).list) :
    p.2.valid_until % nsPerDay = cutoffNs hour minute ∧
    ∃ t, Op.allowOp p.1 p.2.headers t ∈ ops ∧
      t / nsPerDay + (days : Int) ≤ p.2.valid_until / nsPerDay := by
  rcases runOps_origin ops _ p hp with h | ⟨t, ht, hv⟩
  · simp [IpWhitelist.build] at h
  · constructor
    · rw [hv]
      exact new_valid_until_emod _ _ hh hm
    · exact ⟨t, ht, by rw [hv]; exact new_valid_until_day_ge _ _ hh hm⟩

/-- Witness for C4: cutoff 03:00, advance_days 2, one authorize at the
epoch; the stored expiry is day 2 at 03:00:00. -/
theorem C4_expiry_invariant_witness :
    (183600000000000 : Int) % nsPerDay = cutoffNs 3 0 ∧
    ∃ t, Op.allowOp 0 [] t ∈ [Op.allowOp 0 [] 0] ∧
      t / nsPerDay + ((2 : Nat) : Int) ≤ (183600000000000 : Int) / nsPerDay :=
  C4_expiry_invariant 0 3 2 (by decide) (by decide) [Op.allowOp 0 [] 0]
    (0, ⟨183600000000000, []⟩) (by decide)

/-- Claim C7: the header list the authorize handler stores for the
resolved address is exactly the sublist, in request order, of the
incoming request headers whose field name (compared case-insensitively
as tiny_http does) is in the configured allow-list: it is a sublist of
the request headers, every stored header has its field in the
allow-list, and every request header with its field in the allow-list
is stored. -/
theorem C7_authorize_stores_filtered (parseIp : String → Option IpAddr)
    (settings : Settings) (w : IpWhitelist) (rq : Request) (now : Int) :
    ∃ e, ((authorize parseIp settings w rq now).2).get_ip (get_ip parseIp rq) =
        some e ∧
      e.headers =
        rq.headers.filter (fun x => settings.headers.any (fun a => fieldEq a x.field)) ∧
      List.Sublist e.headers rq.headers ∧
      (∀ h ∈ e.headers, settings.headers.any (fun a => fieldEq a h.field) = true) ∧
      (∀ h ∈ rq.headers, settings.headers.any (fun a => fieldEq a h.field) = true →
        h ∈ e.headers) := by
  refine ⟨⟨w.new_valid_until now,
    rq.headers.filter (fun x => settings.headers.any (fun a => fieldEq a x.field))⟩,
    ?_, rfl, List.filter_sublist _, fun h hh => (List.mem_filter.mp hh).2,
    fun h hh hc => List.mem_filter.mpr ⟨hh, hc⟩⟩
  simp [authorize, IpWhitelist.allow, IpWhitelist.get_ip, lookupIp]

/-- Witness for C7, the example of the claim: allow-list Remote-User,
request headers Remote-User: bob and X-Other: x; the stored list is
exactly Remote-User: bob. -/
theorem C7_authorize_stores_filtered_witness :
    ∃ e, ((authorize (fun _ => none) ⟨["Remote-User"], []⟩
          (IpWhitelist.build 0 3 0)
          ⟨[⟨"Remote-User", "bob"⟩, ⟨"X-Other", "x"⟩], 9⟩ 0).2).get_ip
        (get_ip (fun _ => none) ⟨[⟨"Remote-User", "bob"⟩, ⟨"X-Other", "x"⟩], 9⟩) =
        some e ∧
      e.headers = [⟨"Remote-User", "bob"⟩] ∧
      List.Sublist e.headers [⟨"Remote-User", "bob"⟩, ⟨"X-Other", "x"⟩] ∧
      (∀ h ∈ e.headers, (["Remote-User"].any (fun a => fieldEq a h.field)) = true) ∧
      (∀ h ∈ ([⟨"Remote-User", "bob"⟩, ⟨"X-Other", "x"⟩] : List Header),
        (["Remote-User"].any (fun a => fieldEq a h.field)) = true → h ∈ e.headers) :=
  C7_authorize_stores_filtered (fun _ => none) ⟨["Remote-User"], []⟩
    (IpWhitelist.build 0 3 0) ⟨[⟨"Remote-User", "bob"⟩, ⟨"X-Other", "x"⟩], 9⟩ 0

/-- Claim C8: when the resolved address is in the static allow-list the
/allowed handler answers 200, and the response does not depend on the
cache state at all. -/
theorem C8_static_allowlist_200 (parseIp : String → Option IpAddr)
    (settings : Settings) (w : IpWhitelist) (rq : Request) (now : Int)
    (h : get_ip parseIp rq ∈ settings.allow_list) :
    (allowed parseIp settings w rq now).1.status = 200 ∧
    ∀ w2, (allowed parseIp settings w rq now).1 =
      (allowed parseIp settings w2 rq now).1 := by
  constructor
  · simp [allowed, h]
  · intro w2
    simp [allowed, h]

/-- Witness for C8: the peer address 5 is in the static allow-list; the
response is 200 both over a cache holding an expired entry for 5 and
over the empty cache. -/
theorem C8_static_allowlist_200_witness :
    (allowed (fun _ => none) ⟨[], [5]⟩
        ⟨[(5, ⟨0, [⟨"Remote-User", "bob"⟩]⟩)], 0, 3, 0⟩ ⟨[], 5⟩ 100).1.status = 200 ∧
    (allowed (fun _ => none) ⟨[], [5]⟩
        ⟨[(5, ⟨0, [⟨"Remote-User", "bob"⟩]⟩)], 0, 3, 0⟩ ⟨[], 5⟩ 100).1 =
      (allowed (fun _ => none) ⟨[], [5]⟩ (IpWhitelist.build 0 3 0) ⟨[], 5⟩ 100).1 :=
  ⟨(C8_static_allowlist_200 (fun _ => none) ⟨[], [5]⟩
      ⟨[(5, ⟨0, [⟨"Remote-User", "bob"⟩]⟩)], 0, 3, 0⟩ ⟨[], 5⟩ 100 (by decide)).1,
   (C8_static_allowlist_200 (fun _ => none) ⟨[], [5]⟩
      ⟨[(5, ⟨0, [⟨"Remote-User", "bob"⟩]⟩)], 0, 3, 0⟩ ⟨[], 5⟩ 100 (by decide)).2
     (IpWhitelist.build 0 3 0)⟩

/-- Claim C10: when the resolved address is in the static allow-list
the 200 response of the /allowed handler replays no headers, and the
cache is left completely unchanged, whatever it holds for that
address. -/
theorem C10_static_allowlist_frame (parseIp : String → Option IpAddr)
    (settings : Settings) (w : IpWhitelist) (rq : Request) (now : Int)
    (h : get_ip parseIp rq ∈ settings.allow_list) :
    (allowed parseIp settings w rq now).1.headers = [] ∧
    (allowed parseIp settings w rq now).2 = w := by
  simp [allowed, h]

/-- Witness for C10: address 5 is allow-listed; over a cache with a
still-valid entry with captured headers for 5 the response replays
nothing, and over a cache with an expired entry for 5 the entry is not
removed. -/
theorem C10_static_allowlist_frame_witness :
    (allowed (fun _ => none) ⟨[], [5]⟩
        ⟨[(5, ⟨100, [⟨"Remote-User", "bob"⟩]⟩)], 0, 3, 0⟩ ⟨[], 5⟩ 0).1.headers = [] ∧
    (allowed (fun _ => none) ⟨[], [5]⟩
        ⟨[(5, ⟨100, [⟨"Remote-User", "bob"⟩]⟩)], 0, 3, 0⟩ ⟨[], 5⟩ 0).2 =
      ⟨[(5, ⟨100, [⟨"Remote-User", "bob"⟩]⟩)], 0, 3, 0⟩ ∧
    (allowed (fun _ => none) ⟨[], [5]⟩
        ⟨[(5, ⟨0, [⟨"Remote-User", "bob"⟩]⟩)], 0, 3, 0⟩ ⟨[], 5⟩ 100).2 =
      ⟨[(5, ⟨0, [⟨"Remote-User", "bob"⟩]⟩)], 0, 3, 0⟩ :=
  ⟨(C10_static_allowlist_frame (fun _ => none) ⟨[], [5]⟩
      ⟨[(5, ⟨100, [⟨"Remote-User", "bob"⟩]⟩)], 0, 3, 0⟩ ⟨[], 5⟩ 0 (by decide)).1,
   (C10_static_allowlist_frame (fun _ => none) ⟨[], [5]⟩
      ⟨[(5, ⟨100, [⟨"Remote-User", "bob"⟩]⟩)], 0, 3, 0⟩ ⟨[], 5⟩ 0 (by decide)).2,
   (C10_static_allowlist_frame (fun _ => none) ⟨[], [5]⟩
      ⟨[(5, ⟨0, [⟨"Remote-User", "bob"⟩]⟩)], 0, 3, 0⟩ ⟨[], 5⟩ 100 (by decide)).2⟩

/-- The scan of findForwarded yields the first header value, in list
order, that both carries the forwarded-address field and parses. -/
theorem findForwarded_eq_head (parseIp : String → Option IpAddr)
    (hs : List Header) :
    findForwarded parseIp hs =
      (hs.filterMap (fun h =>
        if fieldEq h.field "X-Forwarded-For" then parseIp h.value else none)).head? := by
  induction hs with
  | nil => rfl
  | cons h t ih =>
    simp only [findForwarded, List.filterMap_cons]
    by_cases hf : fieldEq h.field "X-Forwarded-For"
    · rw [if_pos hf, if_pos hf]
      cases parseIp h.value with
      | none => exact ih
      | some ip => rfl
    · rw [if_neg hf, if_neg hf]
      exact ih

/-- Claim C9: get_ip returns the IP parsed from the first
X-Forwarded-For header whose value parses, skipping X-Forwarded-For
headers that do not parse, and falls back to the transport peer
address exactly when no X-Forwarded-For header parses; it always
yields an address. -/
theorem C9_get_ip_resolution (parseIp : String → Option IpAddr)
    (rq : Request) :
    get_ip parseIp rq =
      ((rq.headers.filterMap (fun h =>
        if fieldEq h.field "X-Forwarded-For" then parseIp h.value else none)).head?).getD
        rq.peer := by
  rw [get_ip, findForwarded_eq_head]
  cases (rq.headers.filterMap (fun h =>
    if fieldEq h.field "X-Forwarded-For" then parseIp h.value else none)).head? <;> rfl

end IpManager
